import Mathlib

/-!
Verification of the library-catalog application (Author/Book data model,
query and transfer layers, bulk loader) against its specification.

The embedding models the Django/DRF declarations in
`backend/core/books/models.py`, `serializers.py`, `viewsets.py` and the
management command `fetch_data.py` as pure Lean functions over an explicit
store.  Dates travel as strings (their wire form); machine-assigned ids are
naturals drawn from per-table counters, mirroring autoincrement primary keys.
-/

namespace Catalog

/-- `Author` model (`models.py`): `name` (CharField, max 255, required),
`birth_date` (DateField, nullable), `country` (CharField, max 100, blank
default `""`).  `Meta.ordering = ['name']`. -/
structure Author where
  id : Nat
  name : String
  birth_date : Option String
  country : String
deriving Repr, DecidableEq

/-- `Book` model (`models.py`): `title` (CharField, max 255), `author`
(ForeignKey to `Author`, `on_delete=CASCADE`), `published_date` (DateField,
required), `isbn` (CharField, max 13, `unique=True`).
`Meta.ordering = ['title']`. -/
structure Book where
  id : Nat
  title : String
  authorId : Nat
  published_date : String
  isbn : String
deriving Repr, DecidableEq

/-- The relational store backing both tables, with the autoincrement
counters for system-assigned primary keys. -/
structure Store where
  authors : List Author
  books : List Book
  nextAuthorId : Nat
  nextBookId : Nat
deriving Repr, DecidableEq

/-- Error kinds of the service boundary (spec §7): `notFound` for absent
ids, `integrityError` for uniqueness violations, `referenceError` for an
unresolvable `author_id`, `validationError` for field-constraint failures,
and `keyError` for a missing key in a loader fixture entry (Python
`KeyError`). -/
inductive Err where
  | notFound
  | integrityError
  | referenceError
  | validationError
  | keyError
deriving Repr, DecidableEq

/-- Database-level invariants of a reachable store: primary keys are unique
and below their counters, every book's foreign key resolves, and isbns are
unique (`unique=True`). -/
def Wf (s : Store) : Prop :=
  (s.authors.map (·.id)).Nodup ∧
  (s.books.map (·.id)).Nodup ∧
  (s.books.map (·.isbn)).Nodup ∧
  (∀ b ∈ s.books, ∃ a ∈ s.authors, a.id = b.authorId) ∧
  (∀ a ∈ s.authors, a.id < s.nextAuthorId) ∧
  (∀ b ∈ s.books, b.id < s.nextBookId)

instance : DecidablePred Wf := fun s => by
  unfold Wf
  exact inferInstance

/-! ### Wire shapes (serializers.py) -/

/-- JSON values as produced at the API boundary. -/
inductive JVal where
  | jnull
  | jstr (s : String)
  | jnum (n : Nat)
  | jarr (xs : List JVal)
  | jobj (fields : List (String × JVal))
deriving Repr

/-- A nullable date field on the wire. -/
def optJ : Option String → JVal
  | none => JVal.jnull
  | some d => JVal.jstr d

/-- The field names of an object shape. -/
def keysOf : JVal → List String
  | JVal.jobj fs => fs.map (·.1)
  | _ => []

/-- Field lookup in an object shape. -/
def lookupField (j : JVal) (k : String) : Option JVal :=
  match j with
  | JVal.jobj fs => (fs.find? (fun f => f.1 == k)).map (·.2)
  | _ => none

/-- Lexicographic comparison of character lists, the collation model for
the database's `ORDER BY` on text columns. -/
def charLe : List Char → List Char → Bool
  | [], _ => true
  | _ :: _, [] => false
  | a :: as, b :: bs =>
    if a.toNat < b.toNat then true
    else if b.toNat < a.toNat then false
    else charLe as bs

/-- String comparison in data order. -/
def strLe (x y : String) : Bool := charLe x.data y.data

/-- Sorting relation used by `Book.Meta.ordering = ['title']`. -/
def bookLe (x y : Book) : Prop := strLe x.title y.title = true

instance : DecidableRel bookLe :=
  fun a b => inferInstanceAs (Decidable (strLe a.title b.title = true))

/-- Sorting relation used by `Author.Meta.ordering = ['name']`. -/
def authorLe (x y : Author) : Prop := strLe x.name y.name = true

instance : DecidableRel authorLe :=
  fun a b => inferInstanceAs (Decidable (strLe a.name b.name = true))

/-- An author's related books (`related_name='books'`), in the model's
default title order. -/
def ownedBooks (s : Store) (aid : Nat) : List Book :=
  List.insertionSort bookLe (s.books.filter (fun b => b.authorId == aid))

/-- `BookSummarySerializer`: `fields = ['id', 'title', 'published_date',
'isbn']` — no author field. -/
def bookSummaryJson (b : Book) : JVal :=
  JVal.jobj [("id", JVal.jnum b.id), ("title", JVal.jstr b.title),
    ("published_date", JVal.jstr b.published_date), ("isbn", JVal.jstr b.isbn)]

/-- `AuthorSerializer`: `fields = ['id', 'name', 'birth_date', 'country',
'books']`, `books` a read-only nested list of `BookSummarySerializer`. -/
def authorJson (s : Store) (a : Author) : JVal :=
  JVal.jobj [("id", JVal.jnum a.id), ("name", JVal.jstr a.name),
    ("birth_date", optJ a.birth_date), ("country", JVal.jstr a.country),
    ("books", JVal.jarr ((ownedBooks s a.id).map bookSummaryJson))]

/-- Resolve an author id in the store. -/
def authorOf (s : Store) (aid : Nat) : Option Author :=
  s.authors.find? (fun a => a.id == aid)

/-- `BookSerializer` read shape: `fields = ['id', 'title', 'author',
'author_id', 'published_date', 'isbn']` with `author` a read-only nested
`AuthorSerializer` and `author_id` write-only (absent from responses). -/
def bookJson (s : Store) (b : Book) : JVal :=
  JVal.jobj [("id", JVal.jnum b.id), ("title", JVal.jstr b.title),
    ("author", match authorOf s b.authorId with
      | some a => authorJson s a
      | none => JVal.jnull),
    ("published_date", JVal.jstr b.published_date), ("isbn", JVal.jstr b.isbn)]

/-! ### Store operations (viewsets + ORM semantics) -/

/-- `retrieve` on the book endpoint at the store level: find by primary
key, `NotFound` when absent. -/
def getBook (s : Store) (bid : Nat) : Except Err Book :=
  match s.books.find? (fun b => b.id == bid) with
  | some b => Except.ok b
  | none => Except.error Err.notFound

/-- `DELETE /api/authors/{id}`: the ORM delete of an `Author`; by
`on_delete=models.CASCADE` every `Book` referencing it is deleted in the
same operation.  `NotFound` when the id is absent. -/
def deleteAuthor (s : Store) (aid : Nat) : Except Err Store :=
  if s.authors.any (fun a => a.id == aid) then
    Except.ok { s with
      authors := s.authors.filter (fun a => !(a.id == aid)),
      books := s.books.filter (fun b => !(b.authorId == aid)) }
  else Except.error Err.notFound

/-- A book creation/update payload: the caller supplies a bare
`author_id` (the write-only `PrimaryKeyRelatedField`). -/
structure BookPayload where
  title : String
  author_id : Nat
  published_date : String
  isbn : String
deriving Repr, DecidableEq

/-- Validation of a book payload, collecting all failures as the
serializer's per-field error dict does: `title` required and at most 255
chars, `author_id` must resolve against `Author.objects.all()`
(`referenceError` otherwise), `published_date` required, `isbn` required,
at most 13 chars and unique (`integrityError` on collision). -/
def bookPayloadErrors (s : Store) (p : BookPayload) : List Err :=
  (if p.title == "" || p.title.length > 255 then [Err.validationError] else []) ++
  (if s.authors.any (fun a => a.id == p.author_id) then [] else [Err.referenceError]) ++
  (if p.published_date == "" then [Err.validationError] else []) ++
  (if p.isbn == "" || p.isbn.length > 13 then [Err.validationError] else []) ++
  (if s.books.any (fun b => b.isbn == p.isbn) then [Err.integrityError] else [])

/-- `POST /api/books`: validate, then insert with a fresh primary key.
All validation happens before the write; on any failure nothing is
persisted and the errors are returned. -/
def createBook (s : Store) (p : BookPayload) : Except (List Err) (Store × Book) :=
  match bookPayloadErrors s p with
  | [] =>
    let b : Book := ⟨s.nextBookId, p.title, p.author_id, p.published_date, p.isbn⟩
    Except.ok ({ s with books := s.books ++ [b], nextBookId := s.nextBookId + 1 }, b)
  | e :: rest => Except.error (e :: rest)

/-- An author creation payload (`AuthorSerializer` writable fields). -/
structure AuthorPayload where
  name : String
  birth_date : Option String
  country : String
deriving Repr, DecidableEq

/-- Validation of an author payload: `name` required and at most 255
chars, `country` at most 100 chars (blank allowed). -/
def authorPayloadErrors (p : AuthorPayload) : List Err :=
  (if p.name == "" || p.name.length > 255 then [Err.validationError] else []) ++
  (if p.country.length > 100 then [Err.validationError] else [])

/-- `POST /api/authors`: validate, then insert with a fresh system-assigned
id. -/
def createAuthor (s : Store) (p : AuthorPayload) : Except (List Err) (Store × Author) :=
  match authorPayloadErrors p with
  | [] =>
    let a : Author := ⟨s.nextAuthorId, p.name, p.birth_date, p.country⟩
    Except.ok ({ s with authors := s.authors ++ [a], nextAuthorId := s.nextAuthorId + 1 }, a)
  | e :: rest => Except.error (e :: rest)

/-- `GET /api/authors/{id}`: serialize the found record, `NotFound`
otherwise. -/
def retrieveAuthor (s : Store) (aid : Nat) : Except Err JVal :=
  match s.authors.find? (fun a => a.id == aid) with
  | some a => Except.ok (authorJson s a)
  | none => Except.error Err.notFound

/-! ### Query layer (`viewsets.py` list endpoints) -/

/-- The characters of a string, lowercased. -/
def lowerChars (s : String) : List Char := s.data.map Char.toLower

/-- Whether `needle` occurs as a contiguous run inside `hay`. -/
def hasSub (needle : List Char) : List Char → Bool
  | [] => needle.isEmpty
  | c :: rest => needle.isPrefixOf (c :: rest) || hasSub needle rest

/-- Case-insensitive substring match (`icontains`). -/
def icontains (hay needle : String) : Bool :=
  hasSub (lowerChars needle) (lowerChars hay)

/-- Split a character stream into maximal runs free of whitespace and
commas, accumulating the current token in reverse. -/
def termSplitAux : List Char → List Char → List String
  | [], cur => if cur.isEmpty then [] else [String.mk cur.reverse]
  | c :: rest, cur =>
    if c.isWhitespace || c == ',' then
      if cur.isEmpty then termSplitAux rest []
      else String.mk cur.reverse :: termSplitAux rest []
    else termSplitAux rest (c :: cur)

/-- `rest_framework.filters.SearchFilter` splits the `search` query
parameter on whitespace and commas into individual terms; an object is kept
only when every term matches some search field. -/
def searchTerms (q : String) : List String :=
  termSplitAux q.data []

/-- The author name joined through the book's foreign key
(`author__name`). -/
def authorNameOf (s : Store) (b : Book) : String :=
  match authorOf s b.authorId with
  | some a => a.name
  | none => ""

/-- `BookViewSet` search: `search_fields = ['title', 'author__name',
'isbn']`, each term matched case-insensitively against some field. -/
def bookMatches (s : Store) (b : Book) (q : String) : Bool :=
  (searchTerms q).all (fun t =>
    icontains b.title t || icontains (authorNameOf s b) t || icontains b.isbn t)

/-- `AuthorViewSet` search: `search_fields = ['name', 'country']`. -/
def authorMatches (a : Author) (q : String) : Bool :=
  (searchTerms q).all (fun t => icontains a.name t || icontains a.country t)

/-- `GET /api/books?search=q` with the default ordering
(`ordering = ['title']`). -/
def listBooks (s : Store) (q : String) : List Book :=
  List.insertionSort bookLe (s.books.filter (fun b => bookMatches s b q))

/-- `GET /api/authors?search=q` with the default ordering
(`ordering = ['name']`). -/
def listAuthors (s : Store) (q : String) : List Author :=
  List.insertionSort authorLe (s.authors.filter (fun a => authorMatches a q))

/-! ### Bulk loader (`management/commands/fetch_data.py`) -/

/-- A fixture author entry: a JSON object which may or may not carry each
key.  `none` models an absent key (dict access raises `KeyError`);
`some none` on `birth_date` models the key present with value `null`. -/
structure FixtureAuthor where
  idKey : Option Nat
  nameKey : Option String
  birthDateKey : Option (Option String)
  countryKey : Option String
deriving Repr, DecidableEq

/-- A fixture book entry, likewise with possibly-absent keys. -/
structure FixtureBook where
  titleKey : Option String
  authorIdKey : Option Nat
  publishedDateKey : Option String
  isbnKey : Option String
deriving Repr, DecidableEq

/-- The fixture document: top-level `authors` and `books` arrays. -/
structure Fixture where
  authors : List FixtureAuthor
  books : List FixtureBook
deriving Repr, DecidableEq

/-- The author-creation loop of `Command.handle`: for each entry, read the
four keys (`KeyError` on a missing one) and `Author.objects.create` with
the caller-supplied id (`integrityError` on a duplicated primary key). -/
def loadAuthors : List FixtureAuthor → List Author → Except Err (List Author)
  | [], acc => Except.ok acc
  | e :: rest, acc =>
    match e.idKey, e.nameKey, e.birthDateKey, e.countryKey with
    | some i, some n, some bd, some c =>
      if acc.any (fun a => a.id == i) then Except.error Err.integrityError
      else loadAuthors rest (acc ++ [⟨i, n, bd, c⟩])
    | _, _, _, _ => Except.error Err.keyError

/-- The book-creation loop of `Command.handle`: read the four keys
(`KeyError` on a missing one), resolve `author_id` in the dict of authors
just created from the same document (`KeyError` when absent), and
`Book.objects.create` with an autoincrement id (`integrityError` on an
isbn collision). -/
def loadBooks (as : List Author) :
    List FixtureBook → List Book → Nat → Except Err (List Book × Nat)
  | [], acc, n => Except.ok (acc, n)
  | e :: rest, acc, n =>
    match e.titleKey, e.authorIdKey, e.publishedDateKey, e.isbnKey with
    | some t, some ai, some pd, some ib =>
      match as.find? (fun a => a.id == ai) with
      | none => Except.error Err.keyError
      | some _ =>
        if acc.any (fun b => b.isbn == ib) then Except.error Err.integrityError
        else loadBooks as rest (acc ++ [⟨n, t, ai, pd, ib⟩]) (n + 1)
    | _, _, _, _ => Except.error Err.keyError

/-- `Command.handle`: delete all Books, delete all Authors, then create the
document's authors and finally its books, resolving each `author_id` only
against the authors created from the same document. -/
def handleFetchData (f : Fixture) (s : Store) : Except Err Store :=
  let s1 : Store := { s with books := [] }
  let s2 : Store := { s1 with authors := [] }
  match loadAuthors f.authors [] with
  | Except.error e => Except.error e
  | Except.ok as =>
    match loadBooks as f.books [] s2.nextBookId with
    | Except.error e => Except.error e
    | Except.ok (bs, nb) =>
      Except.ok { s2 with authors := as, books := bs, nextBookId := nb }

/-- Whether a fixture author entry carries all four keys the loader
reads. -/
def fixtureAuthorKeyed (e : FixtureAuthor) : Bool :=
  e.idKey.isSome && e.nameKey.isSome && e.birthDateKey.isSome && e.countryKey.isSome

/-- Whether a fixture book entry carries all four keys the loader
reads. -/
def fixtureBookKeyed (e : FixtureBook) : Bool :=
  e.titleKey.isSome && e.authorIdKey.isSome && e.publishedDateKey.isSome && e.isbnKey.isSome

/-- The Author a fully-keyed fixture entry loads to. -/
def convAuthor (e : FixtureAuthor) : Author :=
  ⟨e.idKey.getD 0, e.nameKey.getD "", e.birthDateKey.getD none, e.countryKey.getD ""⟩

/-- The Books a list of fully-keyed fixture entries loads to, with
autoincrement ids from `n`. -/
def convBooks : List FixtureBook → Nat → List Book
  | [], _ => []
  | e :: rest, n =>
    ⟨n, e.titleKey.getD "", e.authorIdKey.getD 0,
      e.publishedDateKey.getD "", e.isbnKey.getD ""⟩ :: convBooks rest (n + 1)

/-- A well-formed fixture document with one author and one book. -/
def tolkienFixture : Fixture :=
  ⟨[⟨some 1, some "J.R.R. Tolkien", some none, some "UK"⟩],
    [⟨some "The Hobbit", some 1, some "1937-09-21", some "9780547928227"⟩]⟩

/-- A fixture whose only book references an author id absent from the same
document. -/
def ghostFixture : Fixture :=
  ⟨[], [⟨some "Ghost", some 999, some "2000-01-01", some "0000000000000"⟩]⟩

/-- A fixture whose author entry is missing the `birth_date` key. -/
def missingKeyFixture : Fixture :=
  ⟨[⟨some 1, some "NoBirth", none, some "UK"⟩], []⟩

/-! ### Concrete catalog states used to exercise the theorems -/

/-- A sample author. -/
def annAuthor : Author := ⟨1, "Ann", none, ""⟩

/-- A sample book owned by `annAuthor`. -/
def annBook1 : Book := ⟨1, "Alpha", 1, "2000-01-01", "1111111111111"⟩

/-- A second sample book owned by `annAuthor`. -/
def annBook2 : Book := ⟨2, "Beta", 1, "2000-01-02", "2222222222222"⟩

/-- A store holding `annAuthor` and both sample books. -/
def annStore : Store := ⟨[annAuthor], [annBook1, annBook2], 2, 3⟩

/-- An author whose name does not mention Tolkien. -/
def carpenterAuthor : Author := ⟨1, "Humphrey Carpenter", none, "UK"⟩

/-- A biography whose title mentions Tolkien. -/
def biographyBook : Book := ⟨1, "Tolkien", 1, "1977-01-01", "0048260010"⟩

/-- A store where a book title, but no author name, mentions Tolkien. -/
def biographyStore : Store := ⟨[carpenterAuthor], [biographyBook], 2, 2⟩

/-- An author whose name contains the words of a two-word search out of
order. -/
def swappedAuthor : Author := ⟨1, "b a", none, ""⟩

/-- A store holding only `swappedAuthor`. -/
def swappedStore : Store := ⟨[swappedAuthor], [], 2, 1⟩

/-! ## Theorems -/

theorem charLe_total : ∀ xs ys : List Char, charLe xs ys = true ∨ charLe ys xs = true
  | [], _ => Or.inl rfl
  | _ :: _, [] => Or.inr rfl
  | a :: as, b :: bs => by
    rcases Nat.lt_trichotomy a.toNat b.toNat with h | h | h
    · exact Or.inl (by simp [charLe, h])
    · have h1 : ¬ a.toNat < b.toNat := by omega
      have h2 : ¬ b.toNat < a.toNat := by omega
      rcases charLe_total as bs with ih | ih
      · exact Or.inl (by simp [charLe, h1, h2, ih])
      · exact Or.inr (by simp [charLe, h1, h2, ih])
    · exact Or.inr (by simp [charLe, h])

theorem charLe_trans : ∀ xs ys zs : List Char,
    charLe xs ys = true → charLe ys zs = true → charLe xs zs = true
  | [], _, _, _, _ => rfl
  | _ :: _, [], _, h, _ => by simp [charLe] at h
  | _ :: _, _ :: _, [], _, h => by simp [charLe] at h
  | a :: as, b :: bs, c :: cs, h1, h2 => by
    simp only [charLe] at h1 h2 ⊢
    split_ifs at h1 h2 ⊢ with hab hba hbc hcb hac hca <;>
      first
        | rfl
        | omega
        | (exact charLe_trans as bs cs (by simpa using h1) (by simpa using h2))

instance : IsTotal Book bookLe := ⟨fun a b => charLe_total a.title.data b.title.data⟩

instance : IsTrans Book bookLe :=
  ⟨fun _ _ _ h1 h2 => charLe_trans _ _ _ h1 h2⟩

instance : IsTotal Author authorLe := ⟨fun a b => charLe_total a.name.data b.name.data⟩

instance : IsTrans Author authorLe :=
  ⟨fun _ _ _ h1 h2 => charLe_trans _ _ _ h1 h2⟩

/-- Members of a list with `Nodup` keys are determined by their key. -/
theorem key_inj {α : Type} {key : α → Nat} {l : List α}
    (hnd : (l.map key).Nodup) {a b : α} (ha : a ∈ l) (hb : b ∈ l)
    (hk : key a = key b) : a = b :=
  List.inj_on_of_nodup_map hnd ha hb hk

/-- `find?` returns a member satisfying the predicate when it is the only
one that does. -/
theorem find?_of_mem_unique {α : Type} {p : α → Bool} : ∀ {l : List α} {a : α},
    a ∈ l → p a = true → (∀ x ∈ l, p x = true → x = a) → l.find? p = some a
  | [], _, ha, _, _ => absurd ha (List.not_mem_nil _)
  | b :: t, a, ha, hpa, huniq => by
    by_cases hpb : p b = true
    · have hb : b = a := huniq b (List.mem_cons_self b t) hpb
      subst hb
      simp [List.find?, hpb]
    · have hat : a ∈ t := by
        rcases List.mem_cons.mp ha with rfl | h
        · exact absurd hpa hpb
        · exact h
      have : t.find? p = some a :=
        find?_of_mem_unique hat hpa (fun x hx hpx => huniq x (List.mem_cons_of_mem _ hx) hpx)
      simpa [List.find?, hpb] using this

/-- C1: deleting an Author cascades: when the id resolves, the delete
succeeds and removes the Author together with every Book referencing it —
afterwards `getBook` fails with `NotFound` for each such book while books
of other authors survive; when the id does not resolve, the operation
fails with `NotFound` and (being a pure function of the store) performs no
mutation at all, so the cascade is all-or-nothing. -/
theorem delete_author_cascade (s : Store) (aid : Nat) (hw : Wf s) :
    ((∃ a ∈ s.authors, a.id = aid) →
      ∃ s', deleteAuthor s aid = Except.ok s' ∧
        (∀ a ∈ s'.authors, a.id ≠ aid) ∧
        (∀ b ∈ s.books, b.authorId = aid →
          b ∉ s'.books ∧ getBook s' b.id = Except.error Err.notFound) ∧
        (∀ b ∈ s.books, b.authorId ≠ aid → b ∈ s'.books)) ∧
    ((∀ a ∈ s.authors, a.id ≠ aid) →
      deleteAuthor s aid = Except.error Err.notFound) := by
  obtain ⟨hndA, hndB, hndI, href, hlta, hltb⟩ := hw
  constructor
  · rintro ⟨a0, ha0, rfl⟩
    have hany : s.authors.any (fun a => a.id == a0.id) = true :=
      List.any_eq_true.mpr ⟨a0, ha0, by simp⟩
    refine ⟨{ s with
        authors := s.authors.filter (fun a => !(a.id == a0.id)),
        books := s.books.filter (fun b => !(b.authorId == a0.id)) },
      by simp [deleteAuthor, hany], ?_, ?_, ?_⟩
    · intro a ha
      have := (List.mem_filter.mp ha).2
      simpa using this
    · intro b hb hbid
      constructor
      · intro hbmem
        have := (List.mem_filter.mp hbmem).2
        simp [hbid] at this
      · have hfind : (s.books.filter
            (fun b2 => !(b2.authorId == a0.id))).find? (fun x => x.id == b.id) = none := by
          rw [List.find?_eq_none]
          intro x hx hxid
          obtain ⟨hxs, hxna⟩ := List.mem_filter.mp hx
          have hxid2 : x.id = b.id := by simpa using hxid
          have hxb : x = b := key_inj hndB hxs hb hxid2
          subst hxb
          simp [hbid] at hxna
        simp [getBook, hfind]
    · intro b hb hbne
      exact List.mem_filter.mpr ⟨hb, by simpa using hbne⟩
  · intro hnone
    have hany : s.authors.any (fun a => a.id == aid) = false := by
      rw [List.any_eq_false]
      intro x hx
      simp [hnone x hx]
    simp [deleteAuthor, hany]

/-- Witness for C1 at a concrete store with one author owning two books. -/
theorem delete_author_cascade_witness :
    ∃ s', deleteAuthor annStore 1 = Except.ok s' ∧
      (∀ a ∈ s'.authors, a.id ≠ 1) ∧
      (∀ b ∈ annStore.books, b.authorId = 1 →
        b ∉ s'.books ∧ getBook s' b.id = Except.error Err.notFound) ∧
      (∀ b ∈ annStore.books, b.authorId ≠ 1 → b ∈ s'.books) :=
  (delete_author_cascade annStore 1 (by decide)).1 ⟨annAuthor, by decide, by decide⟩

/-- C2: a Book creation payload whose isbn collides with an existing
Book's isbn is rejected — the returned error set contains the uniqueness
violation (`IntegrityError`) and no success value (hence no new record) is
ever produced, leaving the store unchanged. -/
theorem create_duplicate_isbn_rejected (s : Store) (p : BookPayload)
    (hdup : ∃ b0 ∈ s.books, b0.isbn = p.isbn) :
    ∃ errs, createBook s p = Except.error errs ∧ Err.integrityError ∈ errs ∧
      ∀ r, createBook s p ≠ Except.ok r := by
  obtain ⟨b0, hb0, hisbn⟩ := hdup
  have hany : s.books.any (fun b => b.isbn == p.isbn) = true :=
    List.any_eq_true.mpr ⟨b0, hb0, by simp [hisbn]⟩
  have hmem : Err.integrityError ∈ bookPayloadErrors s p := by
    unfold bookPayloadErrors
    rw [if_pos hany]
    exact List.mem_append_right _ (List.mem_cons_self _ _)
  rcases h : bookPayloadErrors s p with _ | ⟨e, rest⟩
  · rw [h] at hmem
    exact absurd hmem (List.not_mem_nil _)
  · rw [h] at hmem
    exact ⟨e :: rest, by simp [createBook, h], hmem, fun r => by simp [createBook, h]⟩

/-- Witness for C2: duplicating `annBook1`'s isbn is rejected. -/
theorem create_duplicate_isbn_rejected_witness :
    ∃ errs, createBook annStore ⟨"New", 1, "2001-01-01", "1111111111111"⟩ =
        Except.error errs ∧ Err.integrityError ∈ errs ∧
      ∀ r, createBook annStore ⟨"New", 1, "2001-01-01", "1111111111111"⟩ ≠ Except.ok r :=
  create_duplicate_isbn_rejected annStore ⟨"New", 1, "2001-01-01", "1111111111111"⟩
    ⟨annBook1, by decide, by decide⟩

/-- C3: a Book write payload whose `author_id` resolves to no Author in the
store is rejected during validation — the error set contains
`ReferenceError` and no success value (hence no persisted Book) is ever
produced. -/
theorem create_unresolvable_author_rejected (s : Store) (p : BookPayload)
    (hno : ∀ a ∈ s.authors, a.id ≠ p.author_id) :
    ∃ errs, createBook s p = Except.error errs ∧ Err.referenceError ∈ errs ∧
      ∀ r, createBook s p ≠ Except.ok r := by
  have hany : s.authors.any (fun a => a.id == p.author_id) = false := by
    rw [List.any_eq_false]
    intro a ha
    simp [hno a ha]
  have hmem : Err.referenceError ∈ bookPayloadErrors s p := by
    have hB : (if (s.authors.any fun a => a.id == p.author_id) = true
        then ([] : List Err) else [Err.referenceError]) = [Err.referenceError] := by
      simp [hany]
    unfold bookPayloadErrors
    rw [hB]
    exact List.mem_append_left _ (List.mem_append_left _ (List.mem_append_left _
      (List.mem_append_right _ (List.mem_cons_self _ _))))
  rcases h : bookPayloadErrors s p with _ | ⟨e, rest⟩
  · rw [h] at hmem
    exact absurd hmem (List.not_mem_nil _)
  · rw [h] at hmem
    exact ⟨e :: rest, by simp [createBook, h], hmem, fun r => by simp [createBook, h]⟩

/-- Witness for C3: author id 999 does not exist in `annStore`. -/
theorem create_unresolvable_author_rejected_witness :
    ∃ errs, createBook annStore ⟨"New", 999, "2001-01-01", "3333333333333"⟩ =
        Except.error errs ∧ Err.referenceError ∈ errs ∧
      ∀ r, createBook annStore ⟨"New", 999, "2001-01-01", "3333333333333"⟩ ≠ Except.ok r :=
  create_unresolvable_author_rejected annStore ⟨"New", 999, "2001-01-01", "3333333333333"⟩
    (by decide)

/-- C6: the Book summary wire shape consists of exactly the fields
`id, title, published_date, isbn` with no `author` field, and the Author
wire shape consists of exactly `id, name, birth_date, country, books`,
where `books` lists the summary shapes of the author's owned Books. -/
theorem serializer_wire_shapes (s : Store) (b : Book) (a : Author) :
    keysOf (bookSummaryJson b) = ["id", "title", "published_date", "isbn"] ∧
    lookupField (bookSummaryJson b) "author" = none ∧
    keysOf (authorJson s a) = ["id", "name", "birth_date", "country", "books"] ∧
    lookupField (authorJson s a) "books" =
      some (JVal.jarr ((ownedBooks s a.id).map bookSummaryJson)) :=
  ⟨rfl, rfl, rfl, rfl⟩

/-- Witness for C6 at `annStore`'s records. -/
theorem serializer_wire_shapes_witness :
    keysOf (bookSummaryJson annBook1) = ["id", "title", "published_date", "isbn"] ∧
    lookupField (bookSummaryJson annBook1) "author" = none ∧
    keysOf (authorJson annStore annAuthor) =
      ["id", "name", "birth_date", "country", "books"] ∧
    lookupField (authorJson annStore annAuthor) "books" =
      some (JVal.jarr ((ownedBooks annStore annAuthor.id).map bookSummaryJson)) :=
  serializer_wire_shapes annStore annBook1 annAuthor

/-- C9: the Book read shape nests the complete Author shape under
`author`, including that author's `books` summary list, which in turn
contains a summary of the very Book being serialized. -/
theorem book_shape_nests_author_books (s : Store) (b : Book) (a : Author)
    (hw : Wf s) (hb : b ∈ s.books) (ha : a ∈ s.authors) (hid : a.id = b.authorId) :
    lookupField (bookJson s b) "author" = some (authorJson s a) ∧
    ∃ l, lookupField (authorJson s a) "books" = some (JVal.jarr l) ∧
      bookSummaryJson b ∈ l := by
  obtain ⟨hndA, hndB, hndI, href, hlta, hltb⟩ := hw
  have hfind : authorOf s b.authorId = some a := by
    unfold authorOf
    apply find?_of_mem_unique ha (by simp [hid])
    intro x hx hpx
    have hxa : x.id = a.id := by
      rw [hid]
      simpa using hpx
    exact key_inj hndA hx ha hxa
  constructor
  · simp [bookJson, lookupField, hfind, List.find?]
  · refine ⟨(ownedBooks s a.id).map bookSummaryJson, rfl, ?_⟩
    apply List.mem_map_of_mem
    unfold ownedBooks
    rw [List.mem_insertionSort]
    exact List.mem_filter.mpr ⟨hb, by simp [hid]⟩

/-- Witness for C9 at `annStore`: `annBook1`'s serialized author is Ann,
whose nested book list contains the summary of `annBook1` itself. -/
theorem book_shape_nests_author_books_witness :
    lookupField (bookJson annStore annBook1) "author" =
        some (authorJson annStore annAuthor) ∧
    ∃ l, lookupField (authorJson annStore annAuthor) "books" = some (JVal.jarr l) ∧
      bookSummaryJson annBook1 ∈ l :=
  book_shape_nests_author_books annStore annBook1 annAuthor
    (by decide) (by decide) (by decide) (by decide)

/-- C5 counterexample: `search_fields` for books are `title`,
`author__name` and `isbn`, so a book whose *title* contains "Tolkien" is
returned even though no author name does — the result is not the set of
books whose author's name contains "Tolkien". -/
theorem listBooks_tolkien_counterexample :
    listBooks biographyStore "Tolkien" = [biographyBook] ∧
    biographyStore.books.filter
      (fun b => icontains (authorNameOf biographyStore b) "Tolkien") = [] ∧
    listBooks biographyStore "Tolkien" ≠
      biographyStore.books.filter
        (fun b => icontains (authorNameOf biographyStore b) "Tolkien") := by
  decide

/-- C5 (amended): `listBooks(searchTerm="Tolkien")` returns exactly the
Books whose title, author's name, or isbn contains "Tolkien"
case-insensitively, ordered by title ascending. -/
theorem listBooks_tolkien_spec (s : Store) :
    (listBooks s "Tolkien").Perm
      (s.books.filter (fun b => icontains b.title "Tolkien" ||
        icontains (authorNameOf s b) "Tolkien" || icontains b.isbn "Tolkien")) ∧
    List.Sorted bookLe (listBooks s "Tolkien") := by
  constructor
  · have hterms : searchTerms "Tolkien" = ["Tolkien"] := by decide
    have hfc : s.books.filter (fun b => bookMatches s b "Tolkien") =
        s.books.filter (fun b => icontains b.title "Tolkien" ||
          icontains (authorNameOf s b) "Tolkien" || icontains b.isbn "Tolkien") := by
      apply List.filter_congr
      intro b _
      simp [bookMatches, hterms]
    have h1 : (listBooks s "Tolkien").Perm
        (s.books.filter (fun b => bookMatches s b "Tolkien")) :=
      List.perm_insertionSort _ _
    rw [hfc] at h1
    exact h1
  · exact List.sorted_insertionSort _ _

/-- Witness for C5's amended statement at the biography store. -/
theorem listBooks_tolkien_spec_witness :
    (listBooks biographyStore "Tolkien").Perm
      (biographyStore.books.filter (fun b => icontains b.title "Tolkien" ||
        icontains (authorNameOf biographyStore b) "Tolkien" ||
        icontains b.isbn "Tolkien")) ∧
    List.Sorted bookLe (listBooks biographyStore "Tolkien") :=
  listBooks_tolkien_spec biographyStore

/-- C8 counterexample: `rest_framework.filters.SearchFilter` splits the
search string on whitespace/commas and requires every term to match some
field, so the two-word search "a b" returns the author named "b a" even
though neither name nor country contains the substring "a b". -/
theorem listAuthors_search_counterexample :
    listAuthors swappedStore "a b" = [swappedAuthor] ∧
    icontains swappedAuthor.name "a b" = false ∧
    icontains swappedAuthor.country "a b" = false := by
  decide

/-- C8 (amended): `listAuthors(searchTerm)` returns exactly the Authors
for which every whitespace/comma-separated term of the search string is
contained, case-insensitively, in the name or the country (for a single
term this is exactly "name or country contains the term"); an empty
searchTerm returns all Authors; the default order is by name ascending. -/
theorem listAuthors_search_spec (s : Store) (q : String) :
    (listAuthors s q).Perm (s.authors.filter (fun a =>
      (searchTerms q).all (fun t => icontains a.name t || icontains a.country t))) ∧
    List.Sorted authorLe (listAuthors s q) ∧
    (q = "" → (listAuthors s q).Perm s.authors) := by
  refine ⟨List.perm_insertionSort _ _, List.sorted_insertionSort _ _, ?_⟩
  intro hq
  subst hq
  have hfe : s.authors.filter (fun a => authorMatches a "") = s.authors := by
    apply List.filter_eq_self.mpr
    intro a _
    rfl
  unfold listAuthors
  rw [hfe]
  exact List.perm_insertionSort _ _

/-- Witness for C8's amended statement at a concrete store, including the
empty-search branch. -/
theorem listAuthors_search_spec_witness :
    (listAuthors swappedStore "").Perm swappedStore.authors ∧
    List.Sorted authorLe (listAuthors swappedStore "a b") :=
  ⟨(listAuthors_search_spec swappedStore "").2.2 rfl,
    (listAuthors_search_spec swappedStore "a b").2.1⟩

/-- C7: creating an Author from a valid payload and retrieving the
assigned id returns exactly the submitted fields plus the assigned id and
an empty `books` list. -/
theorem author_create_retrieve_roundtrip (s : Store) (p : AuthorPayload)
    (s' : Store) (a : Author) (hw : Wf s)
    (hc : createAuthor s p = Except.ok (s', a)) :
    a.id = s.nextAuthorId ∧
    retrieveAuthor s' a.id = Except.ok (JVal.jobj
      [("id", JVal.jnum a.id), ("name", JVal.jstr p.name),
        ("birth_date", optJ p.birth_date), ("country", JVal.jstr p.country),
        ("books", JVal.jarr [])]) := by
  obtain ⟨hndA, hndB, hndI, href, hlta, hltb⟩ := hw
  rcases herr : authorPayloadErrors p with _ | ⟨e, rest⟩
  · unfold createAuthor at hc
    rw [herr] at hc
    simp only [Except.ok.injEq, Prod.mk.injEq] at hc
    obtain ⟨hs', ha⟩ := hc
    subst hs' ha
    refine ⟨rfl, ?_⟩
    have hfind : (s.authors ++
        [Author.mk s.nextAuthorId p.name p.birth_date p.country]).find?
          (fun x => x.id == s.nextAuthorId) =
        some (Author.mk s.nextAuthorId p.name p.birth_date p.country) := by
      rw [List.find?_append]
      have hnone : s.authors.find? (fun x => x.id == s.nextAuthorId) = none := by
        rw [List.find?_eq_none]
        intro x hx hbeq
        have : x.id < s.nextAuthorId := hlta x hx
        have : x.id = s.nextAuthorId := by simpa using hbeq
        omega
      rw [hnone]
      simp [List.find?]
    have hempty : s.books.filter
        (fun b => b.authorId == s.nextAuthorId) = [] := by
      rw [List.filter_eq_nil_iff]
      intro b hb hbeq
      obtain ⟨a0, ha0, hid⟩ := href b hb
      have h1 : a0.id < s.nextAuthorId := hlta a0 ha0
      have h2 : b.authorId = s.nextAuthorId := by simpa using hbeq
      omega
    simp [retrieveAuthor, hfind, authorJson, ownedBooks, hempty]
  · unfold createAuthor at hc
    rw [herr] at hc
    exact Except.noConfusion hc

/-- Witness for C7 starting from the empty store. -/
theorem author_create_retrieve_roundtrip_witness :
    (Author.mk 0 "X" none "").id = (Store.mk [] [] 0 0).nextAuthorId ∧
    retrieveAuthor (Store.mk [Author.mk 0 "X" none ""] [] 1 0)
        (Author.mk 0 "X" none "").id =
      Except.ok (JVal.jobj [("id", JVal.jnum (Author.mk 0 "X" none "").id),
        ("name", JVal.jstr "X"), ("birth_date", optJ none),
        ("country", JVal.jstr ""), ("books", JVal.jarr [])]) :=
  author_create_retrieve_roundtrip (Store.mk [] [] 0 0) (AuthorPayload.mk "X" none "")
    (Store.mk [Author.mk 0 "X" none ""] [] 1 0) (Author.mk 0 "X" none "")
    (by decide) rfl

theorem loadAuthors_ok (entries : List FixtureAuthor) :
    ∀ acc : List Author,
    (∀ e ∈ entries, fixtureAuthorKeyed e = true) →
    (acc.map (·.id) ++ entries.map (fun e => e.idKey.getD 0)).Nodup →
    loadAuthors entries acc = Except.ok (acc ++ entries.map convAuthor) := by
  induction entries with
  | nil =>
    intro acc _ _
    simp [loadAuthors]
  | cons e rest ih =>
    intro acc hk hnd
    have hke := hk e (List.mem_cons_self e rest)
    simp only [fixtureAuthorKeyed, Bool.and_eq_true] at hke
    obtain ⟨⟨⟨hik, hnk⟩, hbk⟩, hck⟩ := hke
    obtain ⟨i, hi⟩ := Option.isSome_iff_exists.mp hik
    obtain ⟨nm, hn⟩ := Option.isSome_iff_exists.mp hnk
    obtain ⟨bd, hbd⟩ := Option.isSome_iff_exists.mp hbk
    obtain ⟨c, hc⟩ := Option.isSome_iff_exists.mp hck
    have hnotin : acc.any (fun a => a.id == i) = false := by
      rw [List.any_eq_false]
      intro a ha hbeq
      have haid : a.id = i := by simpa using hbeq
      have hmem1 : i ∈ acc.map (·.id) := by
        rw [← haid]
        exact List.mem_map_of_mem _ ha
      have hmem2 : i ∈ (e :: rest).map (fun e2 => e2.idKey.getD 0) := by
        simp [hi]
      exact (List.nodup_append.mp hnd).2.2 hmem1 hmem2
    rw [loadAuthors, hi, hn, hbd, hc]
    simp only [hnotin, Bool.false_eq_true, if_false]
    have hrec := ih (acc ++ [(⟨i, nm, bd, c⟩ : Author)])
      (fun e2 he2 => hk e2 (List.mem_cons_of_mem _ he2)) (by
        have : ((acc ++ [(⟨i, nm, bd, c⟩ : Author)]).map (·.id) ++
            rest.map (fun e2 => e2.idKey.getD 0)) =
            acc.map (·.id) ++ (e :: rest).map (fun e2 => e2.idKey.getD 0) := by
          simp [hi, List.append_assoc]
        rw [this]
        exact hnd)
    rw [hrec]
    simp [convAuthor, hi, hn, hbd, hc, List.append_assoc]

theorem loadBooks_ok (as : List Author) (entries : List FixtureBook) :
    ∀ (acc : List Book) (n : Nat),
    (∀ e ∈ entries, fixtureBookKeyed e = true) →
    (∀ e ∈ entries, ∃ a ∈ as, a.id = e.authorIdKey.getD 0) →
    (acc.map (·.isbn) ++ entries.map (fun e => e.isbnKey.getD "")).Nodup →
    loadBooks as entries acc n =
      Except.ok (acc ++ convBooks entries n, n + entries.length) := by
  induction entries with
  | nil =>
    intro acc n _ _ _
    simp [loadBooks, convBooks]
  | cons e rest ih =>
    intro acc n hk hres hnd
    have hke := hk e (List.mem_cons_self e rest)
    simp only [fixtureBookKeyed, Bool.and_eq_true] at hke
    obtain ⟨⟨⟨htk, hak⟩, hpk⟩, hsk⟩ := hke
    obtain ⟨t, ht⟩ := Option.isSome_iff_exists.mp htk
    obtain ⟨ai, hai⟩ := Option.isSome_iff_exists.mp hak
    obtain ⟨pd, hpd⟩ := Option.isSome_iff_exists.mp hpk
    obtain ⟨ib, hib⟩ := Option.isSome_iff_exists.mp hsk
    obtain ⟨a0, ha0, hida⟩ := hres e (List.mem_cons_self e rest)
    have hfind : (as.find? (fun a => a.id == ai)).isSome = true := by
      rcases hf : as.find? (fun a => a.id == ai) with _ | a
      · rw [List.find?_eq_none] at hf
        exact absurd (by simp [hida, hai] : (a0.id == ai) = true) (hf a0 ha0)
      · simp [hf]
    obtain ⟨af, haf⟩ := Option.isSome_iff_exists.mp hfind
    have hnotin : acc.any (fun b => b.isbn == ib) = false := by
      rw [List.any_eq_false]
      intro b hb hbeq
      have hbis : b.isbn = ib := by simpa using hbeq
      have hmem1 : ib ∈ acc.map (·.isbn) := by
        rw [← hbis]
        exact List.mem_map_of_mem _ hb
      have hmem2 : ib ∈ (e :: rest).map (fun e2 => e2.isbnKey.getD "") := by
        simp [hib]
      exact (List.nodup_append.mp hnd).2.2 hmem1 hmem2
    rw [loadBooks, ht, hai, hpd, hib]
    simp only [haf, hnotin, Bool.false_eq_true, if_false]
    have hrec := ih (acc ++ [(⟨n, t, ai, pd, ib⟩ : Book)]) (n + 1)
      (fun e2 he2 => hk e2 (List.mem_cons_of_mem _ he2))
      (fun e2 he2 => hres e2 (List.mem_cons_of_mem _ he2)) (by
        have : ((acc ++ [(⟨n, t, ai, pd, ib⟩ : Book)]).map (·.isbn) ++
            rest.map (fun e2 => e2.isbnKey.getD "")) =
            acc.map (·.isbn) ++ (e :: rest).map (fun e2 => e2.isbnKey.getD "") := by
          simp [hib, List.append_assoc]
        rw [this]
        exact hnd)
    rw [hrec]
    simp only [convBooks, ht, hai, hpd, hib, Option.getD_some]
    simp only [Except.ok.injEq, Prod.mk.injEq, List.append_assoc, List.singleton_append,
      List.length_cons]
    exact ⟨trivial, by omega⟩

theorem loadAuthors_ok_inv (entries : List FixtureAuthor) :
    ∀ acc as, loadAuthors entries acc = Except.ok as →
      as = acc ++ entries.map convAuthor := by
  induction entries with
  | nil =>
    intro acc as h
    simp only [loadAuthors, Except.ok.injEq] at h
    simp [← h]
  | cons e rest ih =>
    intro acc as h
    obtain ⟨ik, nk, bk, ck⟩ := e
    rcases ik with _ | i
    · simp [loadAuthors] at h
    rcases nk with _ | nm
    · simp [loadAuthors] at h
    rcases bk with _ | bd
    · simp [loadAuthors] at h
    rcases ck with _ | c
    · simp [loadAuthors] at h
    simp only [loadAuthors] at h
    by_cases hd : (acc.any fun a => a.id == i) = true
    · rw [if_pos hd] at h
      exact absurd h (by simp)
    · rw [if_neg hd] at h
      have := ih _ _ h
      subst this
      simp [convAuthor, List.append_assoc]

theorem loadAuthors_missing_err (entries : List FixtureAuthor) :
    ∀ acc, (∃ e ∈ entries, fixtureAuthorKeyed e = false) →
      ∃ err, loadAuthors entries acc = Except.error err := by
  induction entries with
  | nil =>
    intro acc h
    rcases h with ⟨e, he, _⟩
    exact absurd he (List.not_mem_nil _)
  | cons e rest ih =>
    intro acc h
    obtain ⟨ik, nk, bk, ck⟩ := e
    rcases ik with _ | i
    · exact ⟨Err.keyError, by simp [loadAuthors]⟩
    rcases nk with _ | nm
    · exact ⟨Err.keyError, by simp [loadAuthors]⟩
    rcases bk with _ | bd
    · exact ⟨Err.keyError, by simp [loadAuthors]⟩
    rcases ck with _ | c
    · exact ⟨Err.keyError, by simp [loadAuthors]⟩
    have hrest : ∃ e2 ∈ rest, fixtureAuthorKeyed e2 = false := by
      rcases h with ⟨e2, he2, hbad⟩
      rcases List.mem_cons.mp he2 with rfl | hmem
      · simp [fixtureAuthorKeyed] at hbad
      · exact ⟨e2, hmem, hbad⟩
    by_cases hd : (acc.any fun a => a.id == i) = true
    · exact ⟨Err.integrityError, by simp [loadAuthors, hd]⟩
    · obtain ⟨err, herr⟩ := ih (acc ++ [(⟨i, nm, bd, c⟩ : Author)]) hrest
      exact ⟨err, by simp [loadAuthors, hd, herr]⟩

theorem loadBooks_missing_err (as : List Author) (entries : List FixtureBook) :
    ∀ acc n, (∃ e ∈ entries, fixtureBookKeyed e = false) →
      ∃ err, loadBooks as entries acc n = Except.error err := by
  induction entries with
  | nil =>
    intro acc n h
    rcases h with ⟨e, he, _⟩
    exact absurd he (List.not_mem_nil _)
  | cons e rest ih =>
    intro acc n h
    obtain ⟨tk, ak, pk, sk⟩ := e
    rcases tk with _ | t
    · exact ⟨Err.keyError, by simp [loadBooks]⟩
    rcases ak with _ | ai
    · exact ⟨Err.keyError, by simp [loadBooks]⟩
    rcases pk with _ | pd
    · exact ⟨Err.keyError, by simp [loadBooks]⟩
    rcases sk with _ | ib
    · exact ⟨Err.keyError, by simp [loadBooks]⟩
    have hrest : ∃ e2 ∈ rest, fixtureBookKeyed e2 = false := by
      rcases h with ⟨e2, he2, hbad⟩
      rcases List.mem_cons.mp he2 with rfl | hmem
      · simp [fixtureBookKeyed] at hbad
      · exact ⟨e2, hmem, hbad⟩
    rcases hf : as.find? (fun a => a.id == ai) with _ | af
    · exact ⟨Err.keyError, by simp [loadBooks, hf]⟩
    by_cases hd : (acc.any fun b => b.isbn == ib) = true
    · exact ⟨Err.integrityError, by simp [loadBooks, hf, hd]⟩
    · obtain ⟨err, herr⟩ := ih (acc ++ [(⟨n, t, ai, pd, ib⟩ : Book)]) (n + 1) hrest
      exact ⟨err, by simp [loadBooks, hf, hd, herr]⟩

theorem loadBooks_unresolvable_err (as : List Author) (entries : List FixtureBook) :
    ∀ acc n, (∃ e ∈ entries, fixtureBookKeyed e = true ∧
        ∀ a ∈ as, a.id ≠ e.authorIdKey.getD 0) →
      ∃ err, loadBooks as entries acc n = Except.error err := by
  induction entries with
  | nil =>
    intro acc n h
    rcases h with ⟨e, he, _⟩
    exact absurd he (List.not_mem_nil _)
  | cons e rest ih =>
    intro acc n h
    obtain ⟨tk, ak, pk, sk⟩ := e
    rcases tk with _ | t
    · exact ⟨Err.keyError, by simp [loadBooks]⟩
    rcases ak with _ | ai
    · exact ⟨Err.keyError, by simp [loadBooks]⟩
    rcases pk with _ | pd
    · exact ⟨Err.keyError, by simp [loadBooks]⟩
    rcases sk with _ | ib
    · exact ⟨Err.keyError, by simp [loadBooks]⟩
    rcases hf : as.find? (fun a => a.id == ai) with _ | af
    · exact ⟨Err.keyError, by simp [loadBooks, hf]⟩
    have hrest : ∃ e2 ∈ rest, fixtureBookKeyed e2 = true ∧
        ∀ a ∈ as, a.id ≠ e2.authorIdKey.getD 0 := by
      rcases h with ⟨e2, he2, hkeyed, hno⟩
      rcases List.mem_cons.mp he2 with rfl | hmem
      · have haf := List.find?_some hf
        have hmemf := List.mem_of_find?_eq_some hf
        have : af.id = ai := by simpa using haf
        exact absurd (by simpa using this) (by simpa using hno af hmemf)
      · exact ⟨e2, hmem, hkeyed, hno⟩
    by_cases hd : (acc.any fun b => b.isbn == ib) = true
    · exact ⟨Err.integrityError, by simp [loadBooks, hf, hd]⟩
    · obtain ⟨err, herr⟩ := ih (acc ++ [(⟨n, t, ai, pd, ib⟩ : Book)]) (n + 1) hrest
      exact ⟨err, by simp [loadBooks, hf, hd, herr]⟩

/-- C4: the loader destructively replaces the whole catalog — all prior
Books and Authors are gone and the resulting store holds exactly the
document's authors (with their caller-supplied ids) followed by its books,
each `author_id` resolved only against the authors created from the same
document; a document containing a book whose `author_id` matches no author
entry of the same document makes the load fail, regardless of what the
prior store contained. -/
theorem fetch_data_replaces_catalog (f g : Fixture) (s : Store) :
    ((∀ e ∈ f.authors, fixtureAuthorKeyed e = true) →
      (∀ e ∈ f.books, fixtureBookKeyed e = true) →
      (f.authors.map (fun e => e.idKey.getD 0)).Nodup →
      (f.books.map (fun e => e.isbnKey.getD "")).Nodup →
      (∀ e ∈ f.books, ∃ ea ∈ f.authors, ea.idKey.getD 0 = e.authorIdKey.getD 0) →
      handleFetchData f s = Except.ok
        { authors := f.authors.map convAuthor,
          books := convBooks f.books s.nextBookId,
          nextAuthorId := s.nextAuthorId,
          nextBookId := s.nextBookId + f.books.length }) ∧
    ((∃ e ∈ g.books, fixtureBookKeyed e = true ∧
        ∀ ea ∈ g.authors, ea.idKey.getD 0 ≠ e.authorIdKey.getD 0) →
      ∃ err, handleFetchData g s = Except.error err) := by
  constructor
  · intro hka hkb hnda hndi hres
    have hla : loadAuthors f.authors [] = Except.ok ([] ++ f.authors.map convAuthor) :=
      loadAuthors_ok f.authors [] hka (by simpa using hnda)
    have hres2 : ∀ e ∈ f.books, ∃ a ∈ f.authors.map convAuthor,
        a.id = e.authorIdKey.getD 0 := by
      intro e he
      obtain ⟨ea, hea, hid⟩ := hres e he
      exact ⟨convAuthor ea, List.mem_map_of_mem _ hea, hid⟩
    have hlb : loadBooks (f.authors.map convAuthor) f.books [] s.nextBookId =
        Except.ok ([] ++ convBooks f.books s.nextBookId,
          s.nextBookId + f.books.length) :=
      loadBooks_ok _ f.books [] s.nextBookId hkb hres2 (by simpa using hndi)
    simp only [List.nil_append] at hla hlb
    simp [handleFetchData, hla, hlb]
  · intro hbad
    rcases hla : loadAuthors g.authors [] with ea | as
    · exact ⟨ea, by simp [handleFetchData, hla]⟩
    · have has : as = g.authors.map convAuthor := by
        simpa using loadAuthors_ok_inv g.authors [] as hla
      obtain ⟨e, he, hkeyed, hno⟩ := hbad
      have hbad2 : ∃ e2 ∈ g.books, fixtureBookKeyed e2 = true ∧
          ∀ a ∈ as, a.id ≠ e2.authorIdKey.getD 0 := by
        refine ⟨e, he, hkeyed, ?_⟩
        intro a ha
        rw [has] at ha
        obtain ⟨ea2, hea2, rfl⟩ := List.mem_map.mp ha
        exact hno ea2 hea2
      obtain ⟨err, herr⟩ := loadBooks_unresolvable_err as g.books [] s.nextBookId hbad2
      exact ⟨err, by simp [handleFetchData, hla, herr]⟩

/-- Witness for C4: a valid one-author/one-book fixture replaces
`annStore`, and a fixture whose book references author id 999 absent from
the same document fails. -/
theorem fetch_data_replaces_catalog_witness :
    handleFetchData tolkienFixture annStore = Except.ok
      { authors := tolkienFixture.authors.map convAuthor,
        books := convBooks tolkienFixture.books annStore.nextBookId,
        nextAuthorId := annStore.nextAuthorId,
        nextBookId := annStore.nextBookId + tolkienFixture.books.length } ∧
    ∃ err, handleFetchData ghostFixture annStore = Except.error err :=
  ⟨(fetch_data_replaces_catalog tolkienFixture ghostFixture annStore).1
      (by decide) (by decide) (by decide) (by decide) (by decide),
    (fetch_data_replaces_catalog tolkienFixture ghostFixture annStore).2 (by decide)⟩

/-- C10: the loader requires every author entry to carry the keys `id`,
`name`, `birth_date`, `country` and every book entry to carry `title`,
`author_id`, `published_date`, `isbn`; an entry missing any of them —
including the fields the data model treats as optional — makes the load
fail instead of defaulting the field. -/
theorem fetch_data_requires_all_keys (f : Fixture) (s : Store)
    (hmiss : (∃ e ∈ f.authors, fixtureAuthorKeyed e = false) ∨
      (∃ e ∈ f.books, fixtureBookKeyed e = false)) :
    ∃ err, handleFetchData f s = Except.error err := by
  rcases hmiss with ha | hb
  · obtain ⟨err, herr⟩ := loadAuthors_missing_err f.authors [] ha
    exact ⟨err, by simp [handleFetchData, herr]⟩
  · rcases hla : loadAuthors f.authors [] with ea | as
    · exact ⟨ea, by simp [handleFetchData, hla]⟩
    · obtain ⟨err, herr⟩ := loadBooks_missing_err as f.books [] s.nextBookId hb
      exact ⟨err, by simp [handleFetchData, hla, herr]⟩

/-- Witness for C10: an author entry missing its nullable `birth_date` key
still aborts the load. -/
theorem fetch_data_requires_all_keys_witness :
    ∃ err, handleFetchData missingKeyFixture annStore = Except.error err :=
  fetch_data_requires_all_keys missingKeyFixture annStore (Or.inl (by decide))

end Catalog
